import Mathlib

/-!
The reverse-tunnel forwarding engine of trafficrouter.

A shallow embedding of

* `src/opt/register/register.go`: the tunnel spec parser (`parse`), the options
  iterator (`forEach`), the tunnel lifecycle manager (`Reg.connect`,
  `Reg.reconnect`, `Reg.Connect`, `Reg.Disconnect`) and the control endpoint
  (`RPC.Connect`);
* `src/server/server.go`: the forward request handler (`TCPIPForwardRequest`,
  `TCPIPCancelRequest`) with the forward registry `rfwds` and the user
  registry `userDB`.

Go maps are association lists with at most one entry per key, goroutine and
channel identities are natural numbers, and the operating system, the resolver
and the package `ssh` of the client are explicit parameters.
-/

/-! ## Go maps -/

/-- Value stored under key `k` (`m[k]`), `none` when the key is absent. -/
def mapGet {κ ν : Type} [DecidableEq κ] : List (κ × ν) → κ → Option ν
  | [], _ => none
  | (k0, v) :: m, k => if k0 = k then some v else mapGet m k

/-- Go `delete(m, k)`. -/
def mapDelete {κ ν : Type} [DecidableEq κ] : List (κ × ν) → κ → List (κ × ν)
  | [], _ => []
  | (k0, v) :: m, k => if k0 = k then mapDelete m k else (k0, v) :: mapDelete m k

/-- Go `m[k] = v`: the entry of `k` is replaced. -/
def mapSet {κ ν : Type} [DecidableEq κ] (m : List (κ × ν)) (k : κ) (v : ν) : List (κ × ν) :=
  (k, v) :: mapDelete m k

namespace Register

/-! ## Regular expressions (Go `regexp`, leftmost-first matching) -/

/-- Submatches recorded along one way of matching: group number and matched text. -/
abbrev Caps := List (Nat × List Char)

/-- Regular expression syntax, as far as the pattern of `parse` uses it. -/
inductive Re where
  /-- one character of a class -/
  | cls (p : Char → Bool)
  /-- greedy `[..]+` over a class -/
  | plus (p : Char → Bool)
  /-- concatenation -/
  | seq (a b : Re)
  /-- alternation, left alternative preferred -/
  | alt (a b : Re)
  /-- greedy `(..)?` -/
  | opt (a : Re)
  /-- capture group number `n` -/
  | group (n : Nat) (a : Re)
  /-- end of text, `$` without the multi-line flag -/
  | eot

/-- All ways for `[..]+` to match at the start of the text, longest first. -/
def plusRun (p : Char → Bool) : List Char → List (List Char × Caps)
  | [] => []
  | c :: s =>
    if p c then (plusRun p s).map (fun m => (c :: m.1, m.2)) ++ [([c], [])] else []

/-- All ways for the expression to match at the start of the text, each with the text it
consumes and its submatches, in the order in which a backtracking search finds them. -/
def Re.run : Re → List Char → List (List Char × Caps)
  | .cls p, s =>
    match s with
    | c :: _ => if p c then [([c], [])] else []
    | [] => []
  | .plus p, s => plusRun p s
  | .seq a b, s =>
    (a.run s).flatMap fun x =>
      (b.run (s.drop x.1.length)).map fun y => (x.1 ++ y.1, x.2 ++ y.2)
  | .alt a b, s => a.run s ++ b.run s
  | .opt a, s => a.run s ++ [([], [])]
  | .group n a, s => (a.run s).map fun m => (m.1, (n, m.1) :: m.2)
  | .eot, s =>
    match s with
    | [] => [([], [])]
    | _ :: _ => []

/-- Leftmost match: the first start position with a match, and there the first match a
backtracking search finds. -/
def findFrom (re : Re) : List Char → Option (List Char × Caps)
  | [] => (re.run []).head?
  | c :: s =>
    match (re.run (c :: s)).head? with
    | some m => some m
    | none => findFrom re s

/-- Text of submatch `n`, empty when the group took no part in the match. -/
def sub (k : Caps) (n : Nat) : String := String.mk ((k.lookup n).getD [])

/-- Go `(*Regexp).FindStringSubmatch` for an expression with six groups: the whole match
followed by the six submatches, the nil slice when there is no match. -/
def FindStringSubmatch (re : Re) (str : String) : List String :=
  match findFrom re str.data with
  | none => []
  | some m => String.mk m.1 :: (List.range 6).map fun i => sub m.2 (i + 1)

/-- Class `a-zA-Z`. -/
def isLetter (c : Char) : Bool :=
  (97 ≤ c.toNat && c.toNat ≤ 122) || (65 ≤ c.toNat && c.toNat ≤ 90)

/-- Class `[0-9]`. -/
def isDigit (c : Char) : Bool := 48 ≤ c.toNat && c.toNat ≤ 57

/-- Class `[a-zA-Z^:]`: inside the brackets `^` and `:` are ordinary members. -/
def lhostFirst (c : Char) : Bool := isLetter c || c == '^' || c == ':'

/-- Class `[a-zA-Z0-9\-\.]`. -/
def lhostRest (c : Char) : Bool := isLetter c || isDigit c || c == '-' || c == '.'

/-- Class `[^:]`. -/
def notColon (c : Char) : Bool := !(c == ':')

/-- A literal character. -/
def lit (d : Char) (c : Char) : Bool := c == d

/-- The pattern compiled in `parse`:
`([a-zA-Z^:][a-zA-Z0-9\-\.]+):([0-9]+|\*)(@([^:]+)(:([0-9]+))?)?$`. -/
def expr : Re :=
  .seq (.group 1 (.seq (.cls lhostFirst) (.plus lhostRest)))
    (.seq (.cls (lit ':'))
      (.seq (.group 2 (.alt (.plus isDigit) (.cls (lit '*'))))
        (.seq
          (.opt (.group 3
            (.seq (.cls (lit '@'))
              (.seq (.group 4 (.plus notColon))
                (.opt (.group 5 (.seq (.cls (lit ':')) (.group 6 (.plus isDigit)))))))))
          .eot)))

/-! ## The tunnel spec parser -/

/-- Modelled from the spec: `utils.Check` of package `utils`, which is not among the
sources. A non-nil error is fatal (a malformed spec "fails with a MalformedSpec error
carrying the offending string"): the computation stops with that error. -/
def Check (e : Option String) : Except String Unit :=
  match e with
  | none => .ok ()
  | some msg => .error msg

/-- The error `parse` hands to `utils.Check`. -/
def parseError (str : String) : String :=
  "Option parse error: [" ++ str ++ "]. Format lhost:lport[@rhost:rport]\n"

/-- Go `parse`: local host, local port, remote host, remote port. -/
def parse (str : String) : Except String (String × String × String × String) :=
  let parts := FindStringSubmatch expr str
  (if parts.length = 0 then Check (some (parseError str)) else Check none) >>= fun _ =>
  let p6 := if parts.getD 6 "" = "" then parts.getD 2 "" else parts.getD 6 ""
  .ok (parts.getD 1 "", parts.getD 2 "", parts.getD 4 "", p6)

/-- The spec's grammar read on the whole string: the pattern of `parse` matches from the
first character to the last. -/
def wholeMatch (str : String) : Bool :=
  (expr.run str.data).any fun m => m.1 == str.data

/-- The spec's `format`: the four fields written back as `lhost:lport@rhost:rport`. -/
def format (f : String × String × String × String) : String :=
  f.1 ++ ":" ++ f.2.1 ++ "@" ++ f.2.2.1 ++ ":" ++ f.2.2.2

/-! ## The tunnel lifecycle manager -/

/-- Go `Reg`. -/
structure Reg where
  opt : String
  Lhost : String
  Lport : String
  Rhost : String
  Rport : String
  user : String
deriving DecidableEq, Repr

/-- Go `Args`. -/
structure Args where
  Lport : String
  Rport : String
deriving DecidableEq, Repr

/-- Go `RPC`. -/
structure RPC where
  opts : List String
  passwd : String
  interval : Int
  debug : Bool
deriving DecidableEq, Repr

/-- Go `forEach`: the callback runs on every option in turn with the state `S` it closes
over and the first error stops the iteration; a malformed option is fatal in `parse`. -/
def forEach {S : Type} (opts : List String) (cb : Reg → S → Option String × S) (s : S) :
    Except String (Option String × S) :=
  match opts with
  | [] => .ok (none, s)
  | o :: rest =>
    match parse o with
    | .error e => .error e
    | .ok (lhost, lport, rhost, rport) =>
      let user := if lport = "*" then lhost else lhost ++ "." ++ lport
      let r : Reg :=
        { opt := o, Lhost := lhost, Lport := lport, Rhost := rhost, Rport := rport, user := user }
      match cb r s with
      | (some err, s1) => .ok (some err, s1)
      | (none, s1) => forEach rest cb s1

/-- Package `ssh` of the client, which is not among the sources, over its own state `σ`:
`Connect` returns the remote port and the error. -/
structure SSH (σ : Type) where
  IsConnected : σ → String → Bool
  Connect : σ → String → String → String → String → String → String → Bool →
    (String × Option String) × σ
  Disconnect : σ → String → σ

/-- One element of `net.InterfaceAddrs()`: an `*net.IPNet` with the text of its IP
(`ipnet.IP.String()`) and whether `ipnet.IP.To4()` is non-nil, or an address of another
dynamic type. -/
inductive IfAddr where
  | ipnet (ip : String) (v4 : Bool)
  | other (addr : String)
deriving DecidableEq, Repr

/-- The resolver and the local interfaces. -/
structure Net where
  LookupHost : String → Except String (List String)
  InterfaceAddrs : List IfAddr

/-- One call of `ssh.Connect`: its arguments and what it returned. -/
structure Dial where
  user : String
  passwd : String
  ip : String
  lport : String
  rport : String
  hash : String
  port : String
  err : Option String
deriving DecidableEq, Repr

/-- The inner loop of `Reg.connect` over the local addresses: the flag `skip`. -/
def skipSelf (ip : String) : List IfAddr → Bool
  | [] => false
  | .ipnet s v4 :: rest => if v4 then (if ip = s then true else skipSelf ip rest) else skipSelf ip rest
  | .other _ :: rest => skipSelf ip rest

/-- What one run of `Reg.connect` leaves: the error returned, the receiver copy at return,
the state of package `ssh`, and the calls of `ssh.Connect` made, in order. -/
structure ConnectOut (σ : Type) where
  err : Option String
  r : Reg
  st : σ
  dials : List Dial

/-- The loop of `Reg.connect` over the resolved IPs. -/
def connectLoop {σ : Type} (ssh : SSH σ) (net : Net) (passwd : String) (debug : Bool) :
    Reg → List String → σ → ConnectOut σ
  | r, [], st => { err := none, r := r, st := st, dials := [] }
  | r, ip :: ips, st =>
    let hash := r.Lhost ++ "." ++ r.Lport ++ "@" ++ ip
    if skipSelf ip net.InterfaceAddrs then connectLoop ssh net passwd debug r ips st
    else if !ssh.IsConnected st hash then
      let res := ssh.Connect st r.user passwd ip r.Lport r.Rport hash debug
      let d : Dial :=
        { user := r.user, passwd := passwd, ip := ip, lport := r.Lport, rport := r.Rport,
          hash := hash, port := res.1.1, err := res.1.2 }
      let r1 : Reg := { r with Rport := res.1.1 }
      match res.1.2 with
      | some e => { err := some e, r := r1, st := res.2, dials := [d] }
      | none =>
        let out := connectLoop ssh net passwd debug r1 ips res.2
        { out with dials := d :: out.dials }
    else connectLoop ssh net passwd debug r ips st

/-- Go `Reg.connect`. The receiver is a value: the caller's `Reg` is not changed. -/
def Reg.connect {σ : Type} (ssh : SSH σ) (net : Net) (r : Reg) (passwd : String)
    (debug : Bool) (st : σ) : ConnectOut σ :=
  match net.LookupHost r.Rhost with
  | .error e => { err := some e, r := r, st := st, dials := [] }
  | .ok ipArr => connectLoop ssh net passwd debug r ipArr st

/-- A retry task: a goroutine running `Reg.reconnect` on its copy `r` of the receiver,
with the channel `done` it made. -/
structure Task where
  r : Reg
  done : Nat
deriving DecidableEq, Repr

/-- The client process: the state of package `ssh`, the global map `goroutines` from local
port to channel, the closed channels, the next fresh channel, the retry tasks that have
made their channel, every call of `ssh.Connect` made so far, the receivers of the
goroutines `go r.reconnect` has started that have not run yet, and whether a `close` of a
closed channel has panicked. -/
structure World (σ : Type) where
  ssh : σ
  goroutines : List (String × Nat)
  closed : List Nat
  nextChan : Nat
  tasks : List Task
  dials : List Dial
  pending : List Reg := []
  panicked : Bool := false

/-- What `select` in `Reg.reconnect` receives: the channel was closed, a value arrived on
the channel, or the interval elapsed. -/
inductive Select where
  | closed
  | value
  | timeout
deriving DecidableEq, Repr

/-- The entry of `Reg.reconnect`: the channel is made and stored under `r.Lport`, whatever
is stored there already. -/
def reconnectEnter {σ : Type} (r : Reg) (w : World σ) : World σ :=
  { w with
    goroutines := mapSet w.goroutines r.Lport w.nextChan
    nextChan := w.nextChan + 1
    tasks := w.tasks ++ [{ r := r, done := w.nextChan }] }

/-- The teardown of `Reg.reconnect`: `ssh.Disconnect` for every resolved IP. -/
def teardown {σ : Type} (ssh : SSH σ) (r : Reg) : List String → σ → σ
  | [], st => st
  | ip :: ips, st => teardown ssh r ips (ssh.Disconnect st (r.Lhost ++ "." ++ r.Lport ++ "@" ++ ip))

/-- The loop of `Reg.reconnect` along the events its `select` receives: every iteration
calls `r.connect` on the same `r` and drops what it returns. The flag is true when the
task has returned. -/
def reconnectLoop {σ : Type} (ssh : SSH σ) (net : Net) (r : Reg) (passwd : String)
    (debug : Bool) : List Select → σ → Bool × σ × List Dial
  | [], st => (false, st, [])
  | ev :: evs, st =>
    let out := r.connect ssh net passwd debug st
    match ev with
    | .closed =>
      let ipArr := match net.LookupHost r.Rhost with
        | .ok l => l
        | .error _ => []
      (true, teardown ssh r ipArr out.st, out.dials)
    | _ =>
      let rest := reconnectLoop ssh net r passwd debug evs out.st
      (rest.1, rest.2.1, out.dials ++ rest.2.2)

/-- Go `Reg.Connect`: on an error of `connect` the goroutine `r.reconnect` is started and
`Connect` returns; the goroutine has not run yet and waits in `pending`. -/
def Reg.Connect {σ : Type} (ssh : SSH σ) (net : Net) (r : Reg) (passwd : String)
    (interval : Int) (debug : Bool) (w : World σ) : Option String × World σ :=
  let _ := interval
  let out := r.connect ssh net passwd debug w.ssh
  let w1 : World σ := { w with ssh := out.st, dials := w.dials ++ out.dials }
  match out.err with
  | some e => (some e, { w1 with pending := w1.pending ++ [r] })
  | none => (none, w1)

/-- The scheduler runs the goroutine started first among the pending ones through the
entry of `Reg.reconnect`, up to its store into `goroutines`. -/
def reconnectStart {σ : Type} (w : World σ) : World σ :=
  match w.pending with
  | [] => w
  | r :: rest => reconnectEnter r { w with pending := rest }

/-- Go `Reg.Disconnect`. Go's `close` of a closed channel panics: the `delete` after it is
not executed and the entry stays. -/
def Reg.Disconnect {σ : Type} (r : Reg) (w : World σ) : World σ :=
  match mapGet w.goroutines r.Lport with
  | some ch =>
    if w.closed.contains ch then { w with panicked := true }
    else { w with closed := ch :: w.closed, goroutines := mapDelete w.goroutines r.Lport }
  | none => w

/-- The loop of Go `Cleanup` over the entries of `goroutines`: every channel is closed,
no entry is deleted; `close` of a closed channel panics. -/
def cleanupLoop {σ : Type} : List (String × Nat) → World σ → World σ
  | [], w => w
  | (_, done) :: rest, w =>
    if w.closed.contains done then { w with panicked := true }
    else cleanupLoop rest { w with closed := done :: w.closed }

/-- Go `Cleanup`, the entries taken in the order of the list. -/
def Cleanup {σ : Type} (w : World σ) : World σ := cleanupLoop w.goroutines w

/-- The loop `for _, reg := range regs { reg.Disconnect() }` of the callback of
`RPC.Connect`: a panic ends it. -/
def disconnectAll {σ : Type} : List Reg → World σ → World σ
  | [], w => w
  | reg :: rest, w =>
    if (reg.Disconnect w).panicked then reg.Disconnect w
    else disconnectAll rest (reg.Disconnect w)

/-- The retry tasks of local port `p` whose channel is not closed: they keep looping. -/
def activeTasks {σ : Type} (w : World σ) (p : String) : List Task :=
  w.tasks.filter fun t => t.r.Lport == p && !w.closed.contains t.done

/-! ## The control endpoint -/

/-- What the callback of `RPC.Connect` closes over: the process, `regs` and `*errno`. -/
structure RpcState (σ : Type) where
  w : World σ
  regs : List Reg
  errno : Int

/-- The callback `RPC.Connect` hands to `forEach`. -/
def connectCb {σ : Type} (ssh : SSH σ) (net : Net) (rpc : RPC) (args : Args) (r : Reg)
    (s : RpcState σ) : Option String × RpcState σ :=
  let r1 : Reg := { r with Lport := args.Lport, Rport := args.Rport }
  match r1.Connect ssh net rpc.passwd rpc.interval rpc.debug s.w with
  | (some err, w1) =>
    let w2 := disconnectAll s.regs w1
    (some err, { s with w := w2, errno := if w2.panicked then s.errno else -1 })
  | (none, w1) => (none, { s with w := w1, regs := s.regs ++ [r1] })

/-- The `forEach` call of `RPC.Connect`: what it returns and the state it leaves. -/
def RPC.connectEach {σ : Type} (ssh : SSH σ) (net : Net) (rpc : RPC) (args : Args)
    (errno : Int) (w : World σ) : Except String (Option String × RpcState σ) :=
  forEach rpc.opts (connectCb ssh net rpc args) { w := w, regs := [], errno := errno }

/-- Go `RPC.Connect`: the value left in `*errno`, the error returned and the process. What
`forEach` returns is dropped. A panic in the callback is not recovered: the call does not
return. -/
def RPC.Connect {σ : Type} (ssh : SSH σ) (net : Net) (rpc : RPC) (args : Args)
    (errno : Int) (w : World σ) : Except String (Int × Option String × World σ) :=
  match rpc.connectEach ssh net args errno w with
  | .error e => .error e
  | .ok (_, s) =>
    if s.w.panicked then .error "panic: close of closed channel" else .ok (0, none, s.w)

end Register

namespace Server

/-! ## The forward request handler -/

/-- Go `tcpipForward`: the payload of `tcpip-forward` and `cancel-tcpip-forward`. `Port`
is a `uint32`. -/
structure tcpipForward where
  Host : String
  Port : Nat
deriving DecidableEq, Repr

/-- An `*ssh.Request`, with `Payload` held in decoded form: the value `ssh.Unmarshal`
writes into `t`. -/
structure Request where
  WantReply : Bool
  Payload : tcpipForward
deriving DecidableEq, Repr

/-- A `net.Listener`: its identity and the text of the address it is bound to
(`ln.Addr().String()`). -/
structure Listener where
  id : Nat
  Addr : String
deriving DecidableEq, Repr

/-- An `ssh.Conn`: the principal, the text of the remote address, and the text of its IP
when the remote address is a `*net.TCPAddr`. -/
structure Conn where
  User : String
  RemoteAddr : String
  RemoteTCP : Option String
deriving DecidableEq, Repr

/-- Go `utils.Host`, as far as the handler fills it. -/
structure Host where
  LocalIP : String
  LocalPort : Nat
  RemoteIP : String
  RemotePort : Nat
deriving DecidableEq, Repr

/-- Go `user`, its field `user` written `name`: a callback is a function value, `none`
being the nil function, and the context `m` is a pointer. -/
structure user where
  name : String
  ccb : Option Nat
  dcb : Option Nat
  m : Nat
deriving DecidableEq, Repr

/-- The zero value of `user`, which a lookup of an absent key in `userDB` yields. -/
def user.zero : user := { name := "", ccb := none, dcb := none, m := 0 }

/-- The operating system: `net.Listen("tcp", addr)` and `utils.GetHostPort` on the address
of a listener. -/
structure Env where
  Listen : String → Except String Listener
  GetHostPort : String → Except String (String × Int)

/-- The server process: the forward registry `rfwds`, the user registry `userDB`, the
listeners closed, the replies sent, the callbacks started, in order, and whether a
goroutine started on a nil function has brought the process down. -/
structure State where
  rfwds : List (String × Listener)
  userDB : List (String × user)
  closed : List Nat
  sent : List (Bool × List Nat)
  calls : List (Nat × Nat × Host)
  fatal : Bool := false
deriving DecidableEq, Repr

/-- How far a handler got. -/
inductive Phase where
  /-- the handler returned -/
  | returned
  /-- the handler blocks in `sshConn.Wait()` with this listener and host record -/
  | waiting (ln : Listener) (h : Host)
  /-- a nil pointer was dereferenced in the handler -/
  | panicked
deriving DecidableEq, Repr

/-- Go `fmt.Sprintf("%s:%d", host, port)`. -/
def fmtAddr (host : String) (port : Nat) : String := host ++ ":" ++ toString port

/-- Go `uint32(port)` of an `int`. -/
def toUint32 (port : Int) : Nat := (port % 2 ^ 32).toNat

/-- Go `binary.BigEndian.PutUint32` into a fresh slice of four bytes. -/
def PutUint32 (v : Nat) : List Nat :=
  [v / 2 ^ 24 % 256, v / 2 ^ 16 % 256, v / 2 ^ 8 % 256, v % 256]

/-- Go `binary.BigEndian.Uint32`: the unsigned 32-bit integer the first four bytes hold. -/
def Uint32 (b : List Nat) : Nat :=
  (b.getD 0 0 % 256) * 2 ^ 24 + (b.getD 1 0 % 256) * 2 ^ 16 + (b.getD 2 0 % 256) * 2 ^ 8
    + b.getD 3 0 % 256

/-- Go `(*ssh.Request).Reply`: nothing is sent when the request did not want a reply. -/
def Reply (req : Request) (ok : Bool) (payload : List Nat) (s : State) : State :=
  if req.WantReply then { s with sent := s.sent ++ [(ok, payload)] } else s

/-- Go `userDB[name]`. -/
def lookupUser (s : State) (name : String) : user :=
  (mapGet s.userDB name).getD user.zero

/-- Go `go cb(u.m, h)`: the statement returns and the handler goes on; the new goroutine
calls `cb`, and the call of a nil function there brings the whole process down. -/
def goCall (cb : Option Nat) (m : Nat) (h : Host) (s : State) : State :=
  match cb with
  | none => { s with fatal := true }
  | some f => { s with calls := s.calls ++ [(f, m, h)] }

/-- Go `TCPIPForwardRequest` up to `sshConn.Wait()`. -/
def TCPIPForwardRequest (env : Env) (req : Request) (sshConn : Conn) (s : State) :
    State × Phase :=
  let t0 : tcpipForward := { Host := "", Port := 0 }
  let reply := (t0.Port == 0) && req.WantReply
  let t := req.Payload
  let addr := fmtAddr t.Host t.Port
  match env.Listen addr with
  | .error _ => (s, .returned)
  | .ok ln =>
    let s1 : State := { s with rfwds := mapSet s.rfwds addr ln }
    let replied : Option (tcpipForward × State) :=
      if reply then
        match env.GetHostPort ln.Addr with
        | .error _ => none
        | .ok (_, port) =>
          some ({ t with Port := toUint32 port }, Reply req true (PutUint32 (toUint32 port)) s1)
      else some (t, Reply req true [] s1)
    match replied with
    | none => (s1, .returned)
    | some (t1, s2) =>
      let u := lookupUser s2 sshConn.User
      match sshConn.RemoteTCP with
      | none => (s2, .panicked)
      | some ip =>
        let h : Host :=
          { LocalIP := t1.Host, LocalPort := t1.Port, RemoteIP := ip, RemotePort := t1.Port }
        (goCall u.ccb u.m h s2, .waiting ln h)

/-- Go `TCPIPForwardRequest` from the return of `sshConn.Wait()`, the transport connection
having terminated, to its end. -/
def forwardTerminated (sshConn : Conn) (ln : Listener) (h : Host) (s : State) :
    State × Phase :=
  let u := lookupUser s sshConn.User
  let s1 := goCall u.dcb u.m h s
  ({ s1 with closed := s1.closed ++ [ln.id] }, .returned)

/-- Go `TCPIPCancelRequest`. -/
def TCPIPCancelRequest (env : Env) (req : Request) (s : State) : State :=
  let t0 : tcpipForward := { Host := "", Port := 0 }
  let reply := (t0.Port == 0) && req.WantReply
  let t := req.Payload
  let addr := fmtAddr t.Host t.Port
  match mapGet s.rfwds addr with
  | none => s
  | some ln =>
    let replied : Option State :=
      if reply then
        match env.GetHostPort ln.Addr with
        | .error _ => none
        | .ok (_, port) => some (Reply req true (PutUint32 (toUint32 port)) s)
      else some (Reply req true [] s)
    match replied with
    | none => s
    | some s1 =>
      { s1 with closed := s1.closed ++ [ln.id], rfwds := mapDelete s1.rfwds addr }

/-- Go `AddUser`: the record of `uname` is stored in `userDB`, replacing an earlier one. -/
def AddUser (uname : String) (m : Nat) (ccb dcb : Option Nat) (s : State) : State :=
  let u : user := { name := uname, m := m, ccb := ccb, dcb := dcb }
  { s with userDB := mapSet s.userDB uname u }

/-- The `PasswordCallback` of Go `Listen`: a principal is admitted when it has a record in
`userDB` and the password is the fixed one; the value is the `user` extension of the
permissions, `none` when the password is rejected. -/
def PasswordCallback (s : State) (name pass : String) : Option String :=
  match mapGet s.userDB name with
  | some u => if pass = "123456789" then some u.name else none
  | none => none

/-- What the server does to its state: `AddUser`, and the handlers `Listen` installs, the
forward handler up to `sshConn.Wait()` and from its return on, and the cancel handler. -/
inductive Op where
  | addUser (uname : String) (m : Nat) (ccb dcb : Option Nat)
  | forward (env : Env) (req : Request) (sshConn : Conn)
  | terminated (sshConn : Conn) (ln : Listener) (h : Host)
  | cancel (env : Env) (req : Request)

/-- One operation of the server. -/
def Op.apply : Op → State → State
  | .addUser uname m ccb dcb, s => AddUser uname m ccb dcb s
  | .forward env req sshConn, s => (TCPIPForwardRequest env req sshConn s).1
  | .terminated sshConn ln h, s => (forwardTerminated sshConn ln h s).1
  | .cancel env req, s => TCPIPCancelRequest env req s

/-- A sequence of operations of the server, first to last. -/
def run : List Op → State → State
  | [], s => s
  | op :: ops, s => run ops (op.apply s)

end Server

namespace Register

/-! ## Scenario fixtures -/

/-- An instance of package `ssh` for scenarios: the state is the list of connected
hashes, a dial to an IP in `down` fails, and a request for remote port "0" is answered
with the port `assigned`. -/
def sshSim (down : List String) (assigned : String) : SSH (List String) where
  IsConnected st hash := st.contains hash
  Connect st _ _ ip _ rport hash _ :=
    if down.contains ip then (("", some ("dial " ++ ip ++ ": connection refused")), st)
    else ((if rport = "0" then assigned else rport, none), hash :: st)
  Disconnect st hash := st.filter fun h => h != hash

/-- A resolver that knows the given hosts, on a machine with the given interfaces. -/
def netSim (hosts : List (String × List String)) (ifs : List IfAddr) : Net where
  LookupHost h :=
    match mapGet hosts h with
    | some ips => .ok ips
    | none => .error ("lookup " ++ h ++ ": no such host")
  InterfaceAddrs := ifs

/-- The spec `web:8080@db` with remote port 0 requested. -/
def regWeb : Reg :=
  { opt := "web:8080@db", Lhost := "web", Lport := "8080", Rhost := "db", Rport := "0",
    user := "web.8080" }

/-- A client process that has done nothing yet. -/
def world0 : World (List String) :=
  { ssh := [], goroutines := [], closed := [], nextChan := 0, tasks := [], dials := [] }

end Register

namespace Register

/-- Package `ssh` with every dial succeeding. -/
def sshUp : SSH (List String) := sshSim [] "40000"

/-- Package `ssh` with the dials to 10.0.0.5 failing. -/
def sshFirstDown : SSH (List String) := sshSim ["10.0.0.5"] "40000"

/-- Package `ssh` with the dials to 10.0.0.6 failing. -/
def sshSecondDown : SSH (List String) := sshSim ["10.0.0.6"] "40000"

/-- No host resolves. -/
def netNone : Net := netSim [] []

/-- The host `db` resolves to 10.0.0.5. -/
def netDb : Net := netSim [("db", ["10.0.0.5"])] []

/-- The host `db` resolves to 10.0.0.5 and 10.0.0.6. -/
def netTwo : Net := netSim [("db", ["10.0.0.5", "10.0.0.6"])] []

/-- The host `localhost` resolves to 127.0.0.1 and ::1, the two addresses of the loopback
interface. -/
def netLoopback : Net :=
  netSim [("localhost", ["127.0.0.1", "::1"])] [.ipnet "127.0.0.1" true, .ipnet "::1" false]

/-- The spec `web:8080@localhost`. -/
def regLocal : Reg := { regWeb with Rhost := "localhost" }

/-- The dial of `regLocal` to ::1. -/
def dialLoopback6 : Dial :=
  { user := "web.8080", passwd := "pw", ip := "::1", lport := "8080", rport := "0",
    hash := "web.8080@::1", port := "40000", err := none }

/-- The process after one failing `Connect` of `regWeb`, the goroutine it started having
stored its channel. -/
def worldFailedOnce : World (List String) :=
  reconnectStart (regWeb.Connect sshUp netNone "pw" 5 false world0).2

/-- The process after two failing `Connect` calls of `regWeb`, the second made when the
first goroutine had stored its channel, and the second goroutine having stored its own. -/
def worldFailedTwice : World (List String) :=
  reconnectStart (regWeb.Connect sshUp netNone "pw" 5 false worldFailedOnce).2

/-- The process after `Connect` of `regWeb` with 10.0.0.6 down, the goroutine it started
having stored its channel. -/
def worldSecondDown : World (List String) :=
  reconnectStart (regWeb.Connect sshSecondDown netTwo "pw" 5 false world0).2

/-- The process after one failing `Connect` of `regWeb` and then `Cleanup`: the entry of
port 8080 holds a closed channel. -/
def worldCleaned : World (List String) := Cleanup worldFailedOnce

/-- A control endpoint configured with two wildcard specs. -/
def rpcTwo : RPC :=
  { opts := ["web:*@db", "api:*@gone"], passwd := "pw", interval := 5, debug := false }

/-- The port event: local port 8080, remote port 0. -/
def argsWeb : Args := { Lport := "8080", Rport := "0" }

end Register

namespace Server

/-! ## Scenario fixtures -/

/-- An operating system on which every listen succeeds: a requested port 0 is bound to
`assigned`, and `utils.GetHostPort` of a listener yields `bound`. -/
def envSim (host : String) (assigned : Nat) (bound : Except String (String × Int)) : Env where
  Listen addr :=
    .ok { id := 1, Addr := if addr = fmtAddr host 0 then fmtAddr host assigned else addr }
  GetHostPort _ := bound

/-- A server whose user registry holds the principal `web.8080`. -/
def state0 : State :=
  { rfwds := [], userDB := [("web.8080", { name := "web.8080", ccb := some 1, dcb := some 2, m := 7 })],
    closed := [], sent := [], calls := [] }

/-- A transport connection of the principal `web.8080`. -/
def connWeb : Conn :=
  { User := "web.8080", RemoteAddr := "10.0.0.9:51000", RemoteTCP := some "10.0.0.9" }

end Server

namespace Server

/-- An operating system that binds port 0 of 0.0.0.0 to 40000. -/
def envDyn : Env := envSim "0.0.0.0" 40000 (.ok ("0.0.0.0", 40000))

/-- An operating system on which the listener read back is bound to port 8080. -/
def envFixed : Env := envSim "0.0.0.0" 40000 (.ok ("0.0.0.0", 8080))

/-- A tcpip-forward request for 0.0.0.0:8080. -/
def reqFixed : Request := { WantReply := true, Payload := { Host := "0.0.0.0", Port := 8080 } }

/-- A tcpip-forward request for 0.0.0.0 port 0. -/
def reqDyn : Request := { WantReply := true, Payload := { Host := "0.0.0.0", Port := 0 } }

/-- A cancel-tcpip-forward request naming the bound address 0.0.0.0:40000. -/
def reqCancelBound : Request :=
  { WantReply := true, Payload := { Host := "0.0.0.0", Port := 40000 } }

/-- The listener bound to 0.0.0.0:8080. -/
def lnFixed : Listener := { id := 1, Addr := "0.0.0.0:8080" }

/-- The listener bound to 0.0.0.0:40000. -/
def lnDyn : Listener := { id := 1, Addr := "0.0.0.0:40000" }

/-- The host record of the forward for 0.0.0.0:8080. -/
def hostFixed : Host :=
  { LocalIP := "0.0.0.0", LocalPort := 8080, RemoteIP := "10.0.0.9", RemotePort := 8080 }

/-- The host record of the forward bound to 0.0.0.0:40000. -/
def hostDyn : Host :=
  { LocalIP := "0.0.0.0", LocalPort := 40000, RemoteIP := "10.0.0.9", RemotePort := 40000 }

/-- A server with an empty user registry. -/
def stateEmpty : State := { rfwds := [], userDB := [], closed := [], sent := [], calls := [] }

/-- A transport connection of the principal `ghost`, which has no record in `state0`. -/
def connGhost : Conn :=
  { User := "ghost", RemoteAddr := "10.0.0.9:51000", RemoteTCP := some "10.0.0.9" }

/-- The server after the forward for 0.0.0.0:8080 was opened. -/
def stateOpened : State := (TCPIPForwardRequest envFixed reqFixed connWeb state0).1

/-- The server after the principal `ghost` had its forward for 0.0.0.0:8080 opened. -/
def stateGhostOpened : State := (TCPIPForwardRequest envFixed reqFixed connGhost state0).1

/-- The server after the forward for 0.0.0.0 port 0 was opened. -/
def stateOpenedDyn : State := (TCPIPForwardRequest envDyn reqDyn connWeb state0).1

end Server

namespace Register

/-! ## The tunnel lifecycle manager and the control endpoint: scenarios -/

/-- C1 (code defect): two `Reg.Connect` calls on local port 8080 that both fail leave two
retry tasks for that port looping, the second started while the first was registered in
`goroutines`; the map keeps the channel of the second only, so `Reg.Disconnect` stops one
task and the other stays, with no entry left to signal it. -/
theorem C1_second_failing_Connect_starts_second_task :
    (regWeb.Connect sshUp netNone "pw" 5 false worldFailedOnce).1
      = some "lookup db: no such host" ∧
    mapGet worldFailedOnce.goroutines "8080" = some 0 ∧
    (activeTasks worldFailedOnce "8080").length = 1 ∧
    (activeTasks worldFailedTwice "8080").length = 2 ∧
    mapGet worldFailedTwice.goroutines "8080" = some 1 ∧
    activeTasks (regWeb.Disconnect worldFailedTwice) "8080" = [Task.mk regWeb 0] ∧
    mapGet (regWeb.Disconnect worldFailedTwice).goroutines "8080" = none := by
  decide

/-- C2 (code defect): with the specs `web:*@db` and `api:*@gone`, `db` resolving and `gone`
not, the connect of the second spec fails, the callback leaves -1 in `*errno` and
`forEach` returns the error, yet `RPC.Connect` leaves 0 in `*errno` and returns the nil
error. -/
theorem C2_RPC_Connect_reports_success_after_failure :
    (rpcTwo.connectEach sshUp netDb argsWeb 0 world0).map
        (fun x => (x.1, x.2.errno, x.2.regs.map fun r => r.opt))
      = .ok (some "lookup gone: no such host", -1, ["web:*@db"]) ∧
    (rpcTwo.Connect sshUp netDb argsWeb 0 world0).map (fun x => (x.1, x.2.1))
      = .ok (0, none) := by
  constructor <;> rfl

/-- C3 (code defect): `db` resolves to 10.0.0.5 and 10.0.0.6, neither is a local address
nor connected, and the dial to 10.0.0.5 fails: `Reg.connect` returns that error having
dialled 10.0.0.5 only, so the later IP 10.0.0.6 is not attempted; the iterations of the
retry task stop at 10.0.0.5 in the same way, and 10.0.0.6 is never dialled. -/
theorem C3_failed_dial_aborts_loop :
    netTwo.LookupHost "db" = .ok ["10.0.0.5", "10.0.0.6"] ∧
    skipSelf "10.0.0.6" netTwo.InterfaceAddrs = false ∧
    sshFirstDown.IsConnected (regWeb.connect sshFirstDown netTwo "pw" false []).st
      "web.8080@10.0.0.6" = false ∧
    (regWeb.connect sshFirstDown netTwo "pw" false []).err
      = some "dial 10.0.0.5: connection refused" ∧
    (regWeb.connect sshFirstDown netTwo "pw" false []).dials.map (fun d => d.ip)
      = ["10.0.0.5"] ∧
    (reconnectLoop sshFirstDown netTwo regWeb "pw" false [.timeout, .timeout, .timeout]
      []).2.2.map (fun d => d.ip) = ["10.0.0.5", "10.0.0.5", "10.0.0.5"] := by
  refine ⟨rfl, ?_, ?_, ?_, ?_, ?_⟩ <;> decide

/-- C4 (code defect): `db` resolves to 10.0.0.5 and 10.0.0.6 and remote port 0 is
requested. In the call of `Reg.Connect` the request for 10.0.0.5 returns port 40000 and
the request for 10.0.0.6 uses 40000 and fails; the retry task started holds the receiver
with remote port "0", and the request of its next iteration for 10.0.0.6 uses "0", not
40000. -/
theorem C4_retry_task_does_not_reuse_bound_port :
    worldSecondDown.dials.map (fun d => (d.ip, d.rport, d.port, d.err.isSome))
      = [("10.0.0.5", "0", "40000", false), ("10.0.0.6", "40000", "", true)] ∧
    worldSecondDown.tasks = [Task.mk regWeb 0] ∧
    regWeb.Rport = "0" ∧
    (reconnectLoop sshSecondDown netTwo regWeb "pw" false [.timeout]
      worldSecondDown.ssh).2.2.map (fun d => (d.ip, d.rport)) = [("10.0.0.6", "0")] := by
  decide

/-- C5 (code defect): `localhost` resolves to 127.0.0.1 and ::1, both addresses of the
loopback interface; 127.0.0.1 is skipped, but ::1, whose `To4()` is nil, is not compared
and is dialled: an outbound connection attempt to an address of a local interface. -/
theorem C5_local_ipv6_address_is_dialled :
    netLoopback.LookupHost "localhost" = .ok ["127.0.0.1", "::1"] ∧
    IfAddr.ipnet "::1" false ∈ netLoopback.InterfaceAddrs ∧
    skipSelf "127.0.0.1" netLoopback.InterfaceAddrs = true ∧
    skipSelf "::1" netLoopback.InterfaceAddrs = false ∧
    (regLocal.connect sshUp netLoopback "pw" false []).dials.map (fun d => d.ip)
      = ["::1"] := by
  refine ⟨rfl, ?_, ?_, ?_, ?_⟩ <;> decide

/-! ## The tunnel spec parser: scenarios -/

/-- C6 (code defect): the string `http://web:8080` is not of the form of the grammar from
its first character on, yet `parse` does not fail: it returns the fields of the match that
starts at `web`. -/
theorem C6_parse_accepts_string_with_leading_text :
    wholeMatch "http://web:8080" = false ∧
    parse "http://web:8080" = .ok ("web", "8080", "", "8080") := by
  constructor <;> rfl

/-- C7 (counterexample): `web:*@db` matches the grammar with a remote host given and a
wildcard local port; its fields format to `web:*@db:*`, which parses to other fields. -/
theorem C7_parse_format_parse_counterexample :
    wholeMatch "web:*@db" = true ∧
    parse "web:*@db" = .ok ("web", "*", "db", "*") ∧
    format ("web", "*", "db", "*") = "web:*@db:*" ∧
    parse (format ("web", "*", "db", "*")) = .ok ("db", "*", "", "*") := by
  refine ⟨?_, ?_, ?_, ?_⟩ <;> rfl

end Register

namespace Server

/-! ## The forward request handler: scenarios -/

/-- C8 (code defect): a forward for 0.0.0.0:8080 is opened and its transport connection
then terminates: the delete-callback is started and the listener closed, but the registry
still holds the entry of 0.0.0.0:8080, naming the closed listener. -/
theorem C8_terminated_forward_stays_registered :
    TCPIPForwardRequest envFixed reqFixed connWeb state0
      = (stateOpened, .waiting lnFixed hostFixed) ∧
    (forwardTerminated connWeb lnFixed hostFixed stateOpened).2 = .returned ∧
    (forwardTerminated connWeb lnFixed hostFixed stateOpened).1.calls
      = [(1, 7, hostFixed), (2, 7, hostFixed)] ∧
    (forwardTerminated connWeb lnFixed hostFixed stateOpened).1.closed = [1] ∧
    mapGet (forwardTerminated connWeb lnFixed hostFixed stateOpened).1.rfwds "0.0.0.0:8080"
      = some lnFixed := by
  decide

/-- C9 (counterexample): a forward requested for 0.0.0.0 port 0 is bound to 0.0.0.0:40000
and registered under `0.0.0.0:0`; the registry has no entry for the bound address, and
a cancel naming 0.0.0.0:40000 changes nothing: the listener is not closed. -/
theorem C9_bound_address_not_registered_counterexample :
    TCPIPForwardRequest envDyn reqDyn connWeb state0 = (stateOpenedDyn, .waiting lnDyn hostDyn) ∧
    stateOpenedDyn.sent = [(true, [0, 0, 156, 64])] ∧
    mapGet stateOpenedDyn.rfwds "0.0.0.0:40000" = none ∧
    mapGet stateOpenedDyn.rfwds "0.0.0.0:0" = some lnDyn ∧
    TCPIPCancelRequest envDyn reqCancelBound stateOpenedDyn = stateOpenedDyn ∧
    (TCPIPCancelRequest envDyn reqCancelBound stateOpenedDyn).closed = [] := by
  decide

end Server

/-! ## Go maps: lookup after store and after delete -/

theorem mapGet_mapDelete_self {κ ν : Type} [DecidableEq κ] (m : List (κ × ν)) (k : κ) :
    mapGet (mapDelete m k) k = none := by
  induction m with
  | nil => rfl
  | cons e m ih =>
    obtain ⟨k0, v⟩ := e
    by_cases hk : k0 = k
    · simp [mapDelete, hk, ih]
    · simp [mapDelete, mapGet, hk, ih]

theorem mapGet_mapSet_self {κ ν : Type} [DecidableEq κ] (m : List (κ × ν)) (k : κ) (v : ν) :
    mapGet (mapSet m k v) k = some v := by
  simp [mapSet, mapGet]

namespace Register

/-! ## `Reg.connect`: which IPs are dialled -/

theorem connectLoop_failed_dial_last {σ : Type} (ssh : SSH σ) (net : Net) (passwd : String)
    (debug : Bool) (ips : List String) :
    ∀ (r : Reg) (st : σ) (pre : List Dial) (d : Dial) (post : List Dial) (e : String),
      (connectLoop ssh net passwd debug r ips st).dials = pre ++ d :: post →
      d.err = some e →
      post = [] ∧ (connectLoop ssh net passwd debug r ips st).err = some e := by
  induction ips with
  | nil =>
    intro r st pre d post e h _
    simp [connectLoop] at h
  | cons ip ips ih =>
    intro r st pre d post e h he
    unfold connectLoop at h ⊢
    simp only at h ⊢
    split_ifs at h ⊢ with hskip hconn
    · exact ih r st pre d post e h he
    · split at h
      · rename_i e1 heq
        simp only at h
        cases pre with
        | nil =>
          simp only [List.nil_append, List.cons.injEq] at h
          obtain ⟨hd, hpost⟩ := h
          subst hd
          simp only at he
          rw [heq] at he
          refine ⟨hpost.symm, ?_⟩
          simp [heq, he]
        | cons p pre =>
          simp at h
      · rename_i heq
        simp only at h
        cases pre with
        | nil =>
          simp only [List.nil_append, List.cons.injEq] at h
          obtain ⟨hd, _⟩ := h
          subst hd
          simp only at he
          rw [heq] at he
          cases he
        | cons p pre =>
          simp only [List.cons_append, List.cons.injEq] at h
          have := ih _ _ pre d post e h.2 he
          simpa [heq] using this
    · exact ih r st pre d post e h he

/-- Whenever `RPC.Connect` returns, it leaves 0 in `*errno` and returns the nil error. -/
theorem RPC_Connect_errno_zero {σ : Type} (ssh : SSH σ) (net : Net) (rpc : RPC) (args : Args)
    (errno : Int) (w : World σ) (res : Int × Option String × World σ)
    (h : rpc.Connect ssh net args errno w = .ok res) : res.1 = 0 ∧ res.2.1 = none := by
  unfold RPC.Connect at h
  split at h
  · cases h
  · split at h
    · cases h
    · cases h
      exact ⟨rfl, rfl⟩

theorem skipSelf_eq_false {ip : String} (l : List IfAddr) (h : skipSelf ip l = false) :
    ∀ s, IfAddr.ipnet s true ∈ l → ip ≠ s := by
  induction l with
  | nil => intro s hs; simp at hs
  | cons a l ih =>
    intro s hs
    cases a with
    | ipnet s0 v4 =>
      cases v4 with
      | true =>
        by_cases hip : ip = s0
        · simp [skipSelf, hip] at h
        · simp only [skipSelf, if_true, hip, if_false] at h
          rcases List.mem_cons.1 hs with h1 | h1
          · cases h1; exact hip
          · exact ih h s h1
      | false =>
        simp only [skipSelf] at h
        rcases List.mem_cons.1 hs with h1 | h1
        · cases h1
        · exact ih (by simpa using h) s h1
    | other x =>
      simp only [skipSelf] at h
      rcases List.mem_cons.1 hs with h1 | h1
      · cases h1
      · exact ih h s h1

theorem connectLoop_dials_not_skipped {σ : Type} (ssh : SSH σ) (net : Net) (passwd : String)
    (debug : Bool) (ips : List String) :
    ∀ (r : Reg) (st : σ) (d : Dial),
      d ∈ (connectLoop ssh net passwd debug r ips st).dials →
      skipSelf d.ip net.InterfaceAddrs = false := by
  induction ips with
  | nil =>
    intro r st d h
    simp [connectLoop] at h
  | cons ip ips ih =>
    intro r st d h
    unfold connectLoop at h
    simp only at h
    split_ifs at h with hskip hconn
    · exact ih r st d h
    · split at h
      · simp only [List.mem_singleton] at h
        subst h
        simpa using hskip
      · simp only [List.mem_cons] at h
        rcases h with h | h
        · subst h
          simpa using hskip
        · exact ih _ _ d h
    · exact ih r st d h

/-- In `Reg.connect` a failed call of `ssh.Connect` is the last call of the run, and its
error is the error `connect` returns. -/
theorem connect_failed_dial_last {σ : Type} (ssh : SSH σ) (net : Net) (r : Reg)
    (passwd : String) (debug : Bool) (st : σ) (pre : List Dial) (d : Dial) (post : List Dial)
    (e : String)
    (h : (r.connect ssh net passwd debug st).dials = pre ++ d :: post)
    (he : d.err = some e) :
    post = [] ∧ (r.connect ssh net passwd debug st).err = some e := by
  unfold Reg.connect at h ⊢
  split at h
  · simp at h
  · exact connectLoop_failed_dial_last ssh net passwd debug _ r st pre d post e h he

/-- What the self-check of `Reg.connect` does achieve: no outbound connection attempt goes
to a resolved IP that equals the text of an IPv4 address (`To4()` non-nil) of an
`*net.IPNet` among the local interface addresses. -/
theorem connect_no_dial_to_local_ipv4 {σ : Type} (ssh : SSH σ) (net : Net) (r : Reg)
    (passwd : String) (debug : Bool) (st : σ) (d : Dial) (s : String)
    (hd : d ∈ (r.connect ssh net passwd debug st).dials)
    (hs : IfAddr.ipnet s true ∈ net.InterfaceAddrs) :
    d.ip ≠ s := by
  unfold Reg.connect at hd
  split at hd
  · simp at hd
  · exact skipSelf_eq_false _
      (connectLoop_dials_not_skipped ssh net passwd debug _ r st d hd) s hs

/-- On a machine whose loopback interface has 127.0.0.1 and ::1, the dial that is made
goes to ::1, not to the IPv4 address 127.0.0.1. -/
theorem connect_no_dial_to_local_ipv4_example :
    dialLoopback6 ∈ (regLocal.connect sshUp netLoopback "pw" false []).dials ∧
    IfAddr.ipnet "127.0.0.1" true ∈ netLoopback.InterfaceAddrs ∧
    dialLoopback6.ip ≠ "127.0.0.1" :=
  ⟨by decide, by decide,
    connect_no_dial_to_local_ipv4 sshUp netLoopback regLocal "pw" false [] dialLoopback6
      "127.0.0.1" (by decide) (by decide)⟩

end Register

namespace Server

/-! ## The forward registry and the reply -/

theorem Reply_rfwds (req : Request) (ok : Bool) (b : List Nat) (s : State) :
    (Reply req ok b s).rfwds = s.rfwds := by
  unfold Reply
  split <;> rfl

theorem Reply_closed (req : Request) (ok : Bool) (b : List Nat) (s : State) :
    (Reply req ok b s).closed = s.closed := by
  unfold Reply
  split <;> rfl

theorem goCall_rfwds (cb : Option Nat) (m : Nat) (h : Host) (s : State) :
    (goCall cb m h s).rfwds = s.rfwds := by
  unfold goCall
  split <;> rfl

theorem goCall_sent (cb : Option Nat) (m : Nat) (h : Host) (s : State) :
    (goCall cb m h s).sent = s.sent := by
  unfold goCall
  split <;> rfl

theorem Uint32_PutUint32 (v : Nat) (hv : v < 2 ^ 32) : Uint32 (PutUint32 v) = v := by
  simp only [Uint32, PutUint32, List.getD_cons_zero, List.getD_cons_succ]
  omega

theorem forward_registers_requested {env : Env} {req : Request} {conn : Conn} {s s1 : State}
    {ln : Listener} {h : Host}
    (hopen : TCPIPForwardRequest env req conn s = (s1, .waiting ln h)) :
    s1.rfwds = mapSet s.rfwds (fmtAddr req.Payload.Host req.Payload.Port) ln := by
  unfold TCPIPForwardRequest at hopen
  simp only at hopen
  split at hopen
  · cases hopen
  · rename_i ln0 hl
    split at hopen
    · cases hopen
    · rename_i t1 s2 hrep
      split at hopen
      · cases hopen
      · simp only [Prod.mk.injEq, Phase.waiting.injEq] at hopen
        obtain ⟨hs, hln, _⟩ := hopen
        subst hs hln
        rw [goCall_rfwds]
        split_ifs at hrep
        · split at hrep
          · cases hrep
          · simp only [Option.some.injEq, Prod.mk.injEq] at hrep
            rw [← hrep.2, Reply_rfwds]
        · simp only [Option.some.injEq, Prod.mk.injEq] at hrep
          rw [← hrep.2, Reply_rfwds]

end Server

namespace Server

/-- The end of `TCPIPForwardRequest`, after the transport connection terminated, leaves the
forward registry as it was: no entry is removed. -/
theorem forwardTerminated_rfwds (conn : Conn) (ln : Listener) (h : Host) (s : State) :
    (forwardTerminated conn ln h s).1.rfwds = s.rfwds := by
  unfold forwardTerminated
  simp only
  exact goCall_rfwds _ _ _ _

/-- C9 (amended): the listener of a forward opened by a successful tcpip-forward request is
registered under the requested address, the host and port of the request as they were
sent (`host:0` when port 0 was requested), so that a later cancel-tcpip-forward naming
that requested address, arriving while the entry is still registered, finds the entry,
closes the listener and removes the entry. -/
theorem C9_cancel_by_requested_address (env env2 : Env) (req cancel : Request) (conn : Conn)
    (s s1 s2 : State) (ln : Listener) (h : Host)
    (hopen : TCPIPForwardRequest env req conn s = (s1, .waiting ln h))
    (hsame : cancel.Payload = req.Payload)
    (hstill : mapGet s2.rfwds (fmtAddr req.Payload.Host req.Payload.Port) = some ln)
    (hport : cancel.WantReply = true → ∃ hp, env2.GetHostPort ln.Addr = .ok hp) :
    mapGet s1.rfwds (fmtAddr req.Payload.Host req.Payload.Port) = some ln ∧
    ln.id ∈ (TCPIPCancelRequest env2 cancel s2).closed ∧
    mapGet (TCPIPCancelRequest env2 cancel s2).rfwds
      (fmtAddr req.Payload.Host req.Payload.Port) = none := by
  have hreg := forward_registers_requested hopen
  have hget : mapGet s1.rfwds (fmtAddr req.Payload.Host req.Payload.Port) = some ln := by
    rw [hreg, mapGet_mapSet_self]
  refine ⟨hget, ?_⟩
  unfold TCPIPCancelRequest
  simp only [hsame, hstill]
  cases hw : cancel.WantReply with
  | false =>
    simp [Reply_closed, Reply_rfwds, mapGet_mapDelete_self]
  | true =>
    obtain ⟨hp, hhp⟩ := hport hw
    simp [hhp, Reply_closed, Reply_rfwds, mapGet_mapDelete_self]

/-- C9 (amended), for a forward requested for 0.0.0.0 port 0 and a cancel carrying the
same host and port. -/
theorem C9_cancel_by_requested_address_witness :
    TCPIPForwardRequest envDyn reqDyn connWeb state0 = (stateOpenedDyn, .waiting lnDyn hostDyn) ∧
    mapGet stateOpenedDyn.rfwds (fmtAddr reqDyn.Payload.Host reqDyn.Payload.Port) = some lnDyn ∧
    lnDyn.id ∈ (TCPIPCancelRequest envDyn reqDyn stateOpenedDyn).closed ∧
    mapGet (TCPIPCancelRequest envDyn reqDyn stateOpenedDyn).rfwds
      (fmtAddr reqDyn.Payload.Host reqDyn.Payload.Port) = none :=
  ⟨by decide,
    C9_cancel_by_requested_address envDyn envDyn reqDyn reqDyn connWeb state0 stateOpenedDyn
      stateOpenedDyn lnDyn hostDyn (by decide) rfl (by decide)
      (fun _ => ⟨("0.0.0.0", 40000), rfl⟩)⟩

/-- C10: for a tcpip-forward request with port 0 whose listen succeeds on a listener bound
to port `p` with `0 < p < 2^32`, the reply the handler sends is one successful reply whose
payload is exactly 4 bytes and decodes, as a big-endian unsigned 32-bit integer, to `p`
(a request that did not want a reply is sent none). -/
theorem C10_reply_payload_decodes_to_bound_port (env : Env) (req : Request) (conn : Conn)
    (s : State) (ln : Listener) (host : String) (p : Int)
    (hzero : req.Payload.Port = 0)
    (hlisten : env.Listen (fmtAddr req.Payload.Host 0) = .ok ln)
    (hbound : env.GetHostPort ln.Addr = .ok (host, p))
    (hpos : 0 < p) (hlt : p < 2 ^ 32) :
    ∃ b : List Nat,
      b.length = 4 ∧ (∀ x ∈ b, x < 256) ∧ (Uint32 b : Int) = p ∧
      (req.WantReply = true →
        (TCPIPForwardRequest env req conn s).1.sent = s.sent ++ [(true, b)]) ∧
      (req.WantReply = false → (TCPIPForwardRequest env req conn s).1.sent = s.sent) := by
  have hv : toUint32 p < 2 ^ 32 := by
    unfold toUint32
    omega
  have hp : ((toUint32 p : Nat) : Int) = p := by
    unfold toUint32
    omega
  refine ⟨PutUint32 (toUint32 p), rfl, ?_, ?_, ?_, ?_⟩
  · intro x hx
    simp only [PutUint32, List.mem_cons, List.mem_singleton, List.not_mem_nil, or_false] at hx
    omega
  · rw [Uint32_PutUint32 _ hv, hp]
  · intro hw
    unfold TCPIPForwardRequest
    simp only [hzero, hlisten, hw, hbound, beq_self_eq_true, Bool.and_self, if_true]
    cases conn.RemoteTCP with
    | none => simp [Reply, hw]
    | some ip => simp [goCall_sent, Reply, hw]
  · intro hw
    unfold TCPIPForwardRequest
    simp only [hzero, hlisten, hw, Bool.and_false, Bool.false_eq_true, if_false]
    cases conn.RemoteTCP with
    | none => simp [Reply, hw]
    | some ip => simp [goCall_sent, Reply, hw]

/-- C10, for a request for 0.0.0.0 port 0 that wants a reply, bound to port 40000. -/
theorem C10_reply_payload_decodes_to_bound_port_witness :
    envDyn.Listen (fmtAddr reqDyn.Payload.Host 0) = .ok lnDyn ∧
    envDyn.GetHostPort lnDyn.Addr = .ok ("0.0.0.0", 40000) ∧
    ∃ b : List Nat,
      b.length = 4 ∧ (∀ x ∈ b, x < 256) ∧ (Uint32 b : Int) = 40000 ∧
      (reqDyn.WantReply = true →
        (TCPIPForwardRequest envDyn reqDyn connWeb state0).1.sent = state0.sent ++ [(true, b)]) ∧
      (reqDyn.WantReply = false →
        (TCPIPForwardRequest envDyn reqDyn connWeb state0).1.sent = state0.sent) :=
  ⟨rfl, rfl,
    C10_reply_payload_decodes_to_bound_port envDyn reqDyn connWeb state0 lnDyn "0.0.0.0" 40000
      rfl rfl rfl (by decide) (by decide)⟩

end Server

namespace Register

/-! ## The pattern of `parse`: the first match on a formatted spec -/

theorem plusRun_eq_nil (p : Char → Bool) (rest : List Char)
    (hrest : ∀ d ∈ rest.head?, p d = false) : plusRun p rest = [] := by
  cases rest with
  | nil => rfl
  | cons d rest =>
    have := hrest d (by simp)
    simp [plusRun, this]

theorem plusRun_cons_true (p : Char → Bool) (c : Char) (s : List Char) (hc : p c = true) :
    plusRun p (c :: s) = (plusRun p s).map (fun m => (c :: m.1, m.2)) ++ [([c], [])] := by
  simp [plusRun, hc]

theorem plusRun_head (p : Char → Bool) (t rest : List Char) (hne : t ≠ [])
    (hall : ∀ c ∈ t, p c = true) (hrest : ∀ d ∈ rest.head?, p d = false) :
    (plusRun p (t ++ rest)).head? = some (t, []) := by
  induction t with
  | nil => exact absurd rfl hne
  | cons c t ih =>
    have hc : p c = true := hall c (by simp)
    rw [List.cons_append, plusRun_cons_true p c _ hc]
    cases t with
    | nil =>
      simp [plusRun_eq_nil p rest hrest]
    | cons c1 t =>
      have h1 : (plusRun p (c1 :: t ++ rest)).head? = some (c1 :: t, []) :=
        ih (by simp) (fun x hx => hall x (List.mem_cons_of_mem _ hx))
      cases hrun : plusRun p (c1 :: t ++ rest) with
      | nil =>
        rw [hrun] at h1
        simp at h1
      | cons x tl =>
        rw [hrun] at h1
        simp only [List.head?_cons, Option.some.injEq] at h1
        subst h1
        simp

theorem run_seq_head {a b : Re} {s : List Char} {x y : List Char × Caps}
    (ha : (a.run s).head? = some x) (hb : (b.run (s.drop x.1.length)).head? = some y) :
    ((Re.seq a b).run s).head? = some (x.1 ++ y.1, x.2 ++ y.2) := by
  cases hra : a.run s with
  | nil => simp [hra] at ha
  | cons x1 tl =>
    simp only [hra, List.head?_cons, Option.some.injEq] at ha
    subst ha
    cases hrb : b.run (s.drop x1.1.length) with
    | nil => simp [hrb] at hb
    | cons y1 tl1 =>
      simp only [hrb, List.head?_cons, Option.some.injEq] at hb
      subst hb
      simp [Re.run, hra, hrb]

theorem run_group_head {a : Re} {n : Nat} {s : List Char} {x : List Char × Caps}
    (ha : (a.run s).head? = some x) :
    ((Re.group n a).run s).head? = some (x.1, (n, x.1) :: x.2) := by
  cases hra : a.run s with
  | nil => simp [hra] at ha
  | cons x1 tl =>
    simp only [hra, List.head?_cons, Option.some.injEq] at ha
    subst ha
    simp [Re.run, hra]

theorem run_opt_head {a : Re} {s : List Char} {x : List Char × Caps}
    (ha : (a.run s).head? = some x) : ((Re.opt a).run s).head? = some x := by
  cases hra : a.run s with
  | nil => simp [hra] at ha
  | cons x1 tl =>
    simp only [hra, List.head?_cons, Option.some.injEq] at ha
    subst ha
    simp [Re.run, hra]

theorem run_cls_head {p : Char → Bool} {c : Char} (s : List Char) (hc : p c = true) :
    ((Re.cls p).run (c :: s)).head? = some ([c], []) := by
  simp [Re.run, hc]

/-- The first match of the pattern on `lhost:lport@rhost:rport`, for fields of the shapes
the pattern itself produces, consumes the whole text and has exactly these fields as
its submatches 1, 2, 4 and 6. -/
theorem expr_run_formatted (c0 : Char) (t p r q : List Char)
    (h0 : lhostFirst c0 = true) (ht : t ≠ []) (htall : ∀ c ∈ t, lhostRest c = true)
    (hp : (p ≠ [] ∧ ∀ c ∈ p, isDigit c = true) ∨ p = ['*'])
    (hr : r ≠ []) (hrall : ∀ c ∈ r, notColon c = true)
    (hq : q ≠ []) (hqall : ∀ c ∈ q, isDigit c = true) :
    (expr.run (c0 :: t ++ ':' :: (p ++ '@' :: (r ++ ':' :: q)))).head? =
      some (c0 :: t ++ ':' :: (p ++ '@' :: (r ++ ':' :: q)),
        [(1, c0 :: t), (2, p), (3, '@' :: (r ++ ':' :: q)), (4, r), (5, ':' :: q), (6, q)]) := by
  have h6 : ((Re.group 6 (.plus isDigit)).run q).head? = some (q, [(6, q)]) := by
    have := plusRun_head isDigit q [] hq hqall (by simp)
    rw [List.append_nil] at this
    exact run_group_head (a := .plus isDigit) this
  have h5 : ((Re.opt (.group 5 (.seq (.cls (lit ':')) (.group 6 (.plus isDigit))))).run
      (':' :: q)).head? = some (':' :: q, [(5, ':' :: q), (6, q)]) := by
    have hc := run_cls_head (p := lit ':') (c := ':') q (by decide)
    have := run_opt_head (run_group_head (n := 5) (run_seq_head hc (by simpa using h6)))
    simpa using this
  have h4 : ((Re.group 4 (.plus notColon)).run (r ++ ':' :: q)).head? = some (r, [(4, r)]) := by
    have := plusRun_head notColon r (':' :: q) hr hrall (by simp [notColon])
    exact run_group_head (a := .plus notColon) this
  have h3 : ((Re.opt (.group 3
      (.seq (.cls (lit '@'))
        (.seq (.group 4 (.plus notColon))
          (.opt (.group 5 (.seq (.cls (lit ':')) (.group 6 (.plus isDigit))))))))).run
      ('@' :: (r ++ ':' :: q))).head? =
      some ('@' :: (r ++ ':' :: q),
        [(3, '@' :: (r ++ ':' :: q)), (4, r), (5, ':' :: q), (6, q)]) := by
    have hc := run_cls_head (p := lit '@') (c := '@') (r ++ ':' :: q) (by decide)
    have h45 := run_seq_head h4 (by simpa using h5)
    have := run_opt_head (run_group_head (n := 3) (run_seq_head hc (by simpa using h45)))
    simpa using this
  have h3e : ((Re.seq (Re.opt (.group 3
      (.seq (.cls (lit '@'))
        (.seq (.group 4 (.plus notColon))
          (.opt (.group 5 (.seq (.cls (lit ':')) (.group 6 (.plus isDigit))))))))) .eot).run
      ('@' :: (r ++ ':' :: q))).head? =
      some ('@' :: (r ++ ':' :: q),
        [(3, '@' :: (r ++ ':' :: q)), (4, r), (5, ':' :: q), (6, q)]) := by
    have he : (Re.eot.run ([] : List Char)).head? = some ([], []) := by simp [Re.run]
    have := run_seq_head h3 (by simpa using he)
    simpa using this
  have h2 : ((Re.group 2 (.alt (.plus isDigit) (.cls (lit '*')))).run
      (p ++ '@' :: (r ++ ':' :: q))).head? = some (p, [(2, p)]) := by
    rcases hp with ⟨hpne, hpall⟩ | hstar
    · have := plusRun_head isDigit p ('@' :: (r ++ ':' :: q)) hpne hpall (by simp; decide)
      cases hrun : plusRun isDigit (p ++ '@' :: (r ++ ':' :: q)) with
      | nil => simp [hrun] at this
      | cons x tl =>
        simp only [hrun, List.head?_cons, Option.some.injEq] at this
        subst this
        simp [Re.run, hrun]
    · subst hstar
      have hnil : plusRun isDigit ('*' :: '@' :: (r ++ ':' :: q)) = [] :=
        plusRun_eq_nil _ _ (by simp; decide)
      simp [Re.run, hnil, lit]
  have h1 : ((Re.group 1 (.seq (.cls lhostFirst) (.plus lhostRest))).run
      (c0 :: t ++ ':' :: (p ++ '@' :: (r ++ ':' :: q)))).head? = some (c0 :: t, [(1, c0 :: t)]) := by
    have hc := run_cls_head (p := lhostFirst) (c := c0)
      (t ++ ':' :: (p ++ '@' :: (r ++ ':' :: q))) h0
    have hpl := plusRun_head lhostRest t (':' :: (p ++ '@' :: (r ++ ':' :: q))) ht htall
      (by simp; decide)
    have hpl1 : ((Re.plus lhostRest).run (t ++ ':' :: (p ++ '@' :: (r ++ ':' :: q)))).head? =
      some (t, []) := hpl
    have := run_group_head (n := 1) (run_seq_head hc (by simpa using hpl1))
    simpa using this
  have hcolon := run_cls_head (p := lit ':') (c := ':') (p ++ '@' :: (r ++ ':' :: q)) (by decide)
  have h23 := run_seq_head h2 (by simpa using h3e)
  have h123 := run_seq_head hcolon (by simpa using h23)
  have := run_seq_head h1 (by simpa using h123)
  simpa [expr] using this

end Register

namespace Register

/-! ## The pattern of `parse`: the shape of the submatches -/

theorem plusRun_mem (p : Char → Bool) (s : List Char) (m : List Char × Caps)
    (hm : m ∈ plusRun p s) : m.2 = [] ∧ m.1 ≠ [] ∧ ∀ c ∈ m.1, p c = true := by
  induction s generalizing m with
  | nil => simp [plusRun] at hm
  | cons c s ih =>
    by_cases hc : p c = true
    · rw [plusRun_cons_true p c s hc] at hm
      rcases List.mem_append.1 hm with h | h
      · obtain ⟨m1, hm1, rfl⟩ := List.mem_map.1 h
        obtain ⟨h1, _, h3⟩ := ih m1 hm1
        refine ⟨h1, by simp, ?_⟩
        intro x hx
        rcases List.mem_cons.1 hx with hx | hx
        · rw [hx]; exact hc
        · exact h3 x hx
      · simp only [List.mem_singleton] at h
        subst h
        simp [hc]
    · simp [plusRun, hc] at hm

theorem mem_run_seq {a b : Re} {s : List Char} {m : List Char × Caps}
    (hm : m ∈ (Re.seq a b).run s) :
    ∃ x ∈ a.run s, ∃ y ∈ b.run (s.drop x.1.length), m = (x.1 ++ y.1, x.2 ++ y.2) := by
  simp only [Re.run, List.mem_flatMap, List.mem_map] at hm
  obtain ⟨x, hx, y, hy, rfl⟩ := hm
  exact ⟨x, hx, y, hy, rfl⟩

theorem mem_run_group {a : Re} {n : Nat} {s : List Char} {m : List Char × Caps}
    (hm : m ∈ (Re.group n a).run s) : ∃ x ∈ a.run s, m = (x.1, (n, x.1) :: x.2) := by
  simp only [Re.run, List.mem_map] at hm
  obtain ⟨x, hx, rfl⟩ := hm
  exact ⟨x, hx, rfl⟩

theorem mem_run_cls {p : Char → Bool} {s : List Char} {m : List Char × Caps}
    (hm : m ∈ (Re.cls p).run s) : ∃ c, m = ([c], []) ∧ p c = true := by
  cases s with
  | nil => simp [Re.run] at hm
  | cons c s =>
    by_cases hc : p c = true
    · simp only [Re.run, hc, if_true, List.mem_singleton] at hm
      exact ⟨c, hm, hc⟩
    · simp [Re.run, hc] at hm

theorem mem_run_plus {p : Char → Bool} {s : List Char} {m : List Char × Caps}
    (hm : m ∈ (Re.plus p).run s) : ∃ w, m = (w, []) ∧ w ≠ [] ∧ ∀ c ∈ w, p c = true := by
  obtain ⟨h1, h2, h3⟩ := plusRun_mem p s m (by simpa [Re.run] using hm)
  exact ⟨m.1, by rw [← h1], h2, h3⟩

theorem mem_run_opt {a : Re} {s : List Char} {m : List Char × Caps}
    (hm : m ∈ (Re.opt a).run s) : m ∈ a.run s ∨ m = ([], []) := by
  simpa [Re.run] using hm

theorem mem_run_alt {a b : Re} {s : List Char} {m : List Char × Caps}
    (hm : m ∈ (Re.alt a b).run s) : m ∈ a.run s ∨ m ∈ b.run s := by
  simpa [Re.run] using hm

theorem mem_run_eot {s : List Char} {m : List Char × Caps}
    (hm : m ∈ Re.eot.run s) : m = ([], []) := by
  cases s with
  | nil => simpa [Re.run] using hm
  | cons c s => simp [Re.run] at hm

/-- Every way the pattern matches records a local host made of one first character and a
non-empty rest, a local port of digits or `*`, and, when the optional groups take part,
a non-empty remote host without colon and a remote port of digits. -/
theorem expr_run_caps (s : List Char) (m : List Char × Caps) (hm : m ∈ expr.run s) :
    ∃ (c0 : Char) (t p : List Char) (k3 : Caps),
      m.2 = (1, c0 :: t) :: (2, p) :: k3 ∧
      lhostFirst c0 = true ∧ t ≠ [] ∧ (∀ c ∈ t, lhostRest c = true) ∧
      ((p ≠ [] ∧ ∀ c ∈ p, isDigit c = true) ∨ p = ['*']) ∧
      (k3 = [] ∨ ∃ (w3 r : List Char) (k5 : Caps),
        k3 = (3, w3) :: (4, r) :: k5 ∧ r ≠ [] ∧ (∀ c ∈ r, notColon c = true) ∧
        (k5 = [] ∨ ∃ (w5 q : List Char),
          k5 = [(5, w5), (6, q)] ∧ q ≠ [] ∧ ∀ c ∈ q, isDigit c = true)) := by
  unfold expr at hm
  obtain ⟨x1, hx1, y1, hy1, rfl⟩ := mem_run_seq hm
  obtain ⟨g1, hg1, rfl⟩ := mem_run_group hx1
  obtain ⟨a1, ha1, b1, hb1, rfl⟩ := mem_run_seq hg1
  obtain ⟨c0, rfl, hc0⟩ := mem_run_cls ha1
  obtain ⟨t, rfl, htne, htall⟩ := mem_run_plus hb1
  obtain ⟨x2, hx2, y2, hy2, rfl⟩ := mem_run_seq hy1
  obtain ⟨cc, rfl, _⟩ := mem_run_cls hx2
  obtain ⟨x3, hx3, y3, hy3, rfl⟩ := mem_run_seq hy2
  obtain ⟨g2, hg2, rfl⟩ := mem_run_group hx3
  obtain ⟨x4, hx4, y4, hy4, rfl⟩ := mem_run_seq hy3
  obtain rfl := mem_run_eot hy4
  have hp : ∃ p, g2 = (p, []) ∧ ((p ≠ [] ∧ ∀ c ∈ p, isDigit c = true) ∨ p = ['*']) := by
    rcases mem_run_alt hg2 with h | h
    · obtain ⟨p, rfl, hpne, hpall⟩ := mem_run_plus h
      exact ⟨p, rfl, Or.inl ⟨hpne, hpall⟩⟩
    · obtain ⟨c, rfl, hc⟩ := mem_run_cls h
      have : c = '*' := by simpa [lit] using hc
      exact ⟨[c], rfl, Or.inr (by rw [this])⟩
  obtain ⟨p, rfl, hpshape⟩ := hp
  refine ⟨c0, t, p, x4.2, by simp, hc0, htne, htall, hpshape, ?_⟩
  rcases mem_run_opt hx4 with h | h
  · right
    obtain ⟨g3, hg3, rfl⟩ := mem_run_group h
    obtain ⟨a3, ha3, b3, hb3, rfl⟩ := mem_run_seq hg3
    obtain ⟨c3, rfl, _⟩ := mem_run_cls ha3
    obtain ⟨a4, ha4, b4, hb4, rfl⟩ := mem_run_seq hb3
    obtain ⟨g4, hg4, rfl⟩ := mem_run_group ha4
    obtain ⟨r, rfl, hrne, hrall⟩ := mem_run_plus hg4
    refine ⟨c3 :: (r ++ b4.1), r, b4.2, by simp, hrne, hrall, ?_⟩
    rcases mem_run_opt hb4 with h5 | h5
    · right
      obtain ⟨g5, hg5, rfl⟩ := mem_run_group h5
      obtain ⟨a5, ha5, b5, hb5, rfl⟩ := mem_run_seq hg5
      obtain ⟨c5, rfl, _⟩ := mem_run_cls ha5
      obtain ⟨g6, hg6, rfl⟩ := mem_run_group hb5
      obtain ⟨q, rfl, hqne, hqall⟩ := mem_run_plus hg6
      exact ⟨c5 :: q, q, by simp, hqne, hqall⟩
    · left
      rw [h5]
  · left
    rw [h]

theorem findFrom_mem (re : Re) (s : List Char) (m : List Char × Caps)
    (h : findFrom re s = some m) : ∃ suf, m ∈ re.run suf := by
  induction s with
  | nil =>
    exact ⟨[], List.mem_of_mem_head? (by simpa [findFrom] using h)⟩
  | cons c s ih =>
    unfold findFrom at h
    split at h
    · rename_i m1 hm1
      cases h
      exact ⟨c :: s, List.mem_of_mem_head? hm1⟩
    · exact ih h

theorem findFrom_head (re : Re) (c : Char) (s : List Char) (m : List Char × Caps)
    (h : (re.run (c :: s)).head? = some m) : findFrom re (c :: s) = some m := by
  simp [findFrom, h]

end Register

namespace Register

/-! ## `parse` on the text it formats -/

theorem parse_of_findFrom (str : String) (m : List Char × Caps)
    (h : findFrom expr str.data = some m) :
    parse str = .ok (sub m.2 1, sub m.2 2, sub m.2 4,
      if sub m.2 6 = "" then sub m.2 2 else sub m.2 6) := by
  simp [parse, FindStringSubmatch, h, Check, List.range, List.range.loop, bind, Except.bind]

theorem parse_of_findFrom_none (str : String) (h : findFrom expr str.data = none) :
    parse str = .error (parseError str) := by
  simp [parse, FindStringSubmatch, h, Check, bind, Except.bind]

theorem format_data (l p r q : List Char) :
    (format (String.mk l, String.mk p, String.mk r, String.mk q)).data =
      l ++ ':' :: (p ++ '@' :: (r ++ ':' :: q)) := by
  simp [format, String.data_append]

theorem parse_formatted (c0 : Char) (t p r q : List Char)
    (h0 : lhostFirst c0 = true) (ht : t ≠ []) (htall : ∀ c ∈ t, lhostRest c = true)
    (hp : (p ≠ [] ∧ ∀ c ∈ p, isDigit c = true) ∨ p = ['*'])
    (hr : r ≠ []) (hrall : ∀ c ∈ r, notColon c = true)
    (hq : q ≠ []) (hqall : ∀ c ∈ q, isDigit c = true) :
    parse (format (String.mk (c0 :: t), String.mk p, String.mk r, String.mk q)) =
      .ok (String.mk (c0 :: t), String.mk p, String.mk r, String.mk q) := by
  have hrun := expr_run_formatted c0 t p r q h0 ht htall hp hr hrall hq hqall
  have hfind : findFrom expr
      (format (String.mk (c0 :: t), String.mk p, String.mk r, String.mk q)).data =
      some (c0 :: t ++ ':' :: (p ++ '@' :: (r ++ ':' :: q)),
        [(1, c0 :: t), (2, p), (3, '@' :: (r ++ ':' :: q)), (4, r), (5, ':' :: q), (6, q)]) := by
    rw [format_data (c0 :: t) p r q]
    exact findFrom_head expr c0 _ _ hrun
  rw [parse_of_findFrom _ _ hfind]
  have hq2 : String.mk q ≠ "" := by
    intro hc
    apply hq
    have := congrArg String.data hc
    simpa using this
  simp [sub, List.lookup, hq2]

end Register

namespace Register

/-- C7 (amended): for every spec string on which `parse` succeeds with a remote host given
and a parsed remote port other than the wildcard (the local port is digits, or a remote
port is written), formatting the parsed fields as `lhost:lport@rhost:rport` and parsing
that string again yields the same four fields. -/
theorem C7_parse_format_parse (str l p r q : String)
    (h : parse str = .ok (l, p, r, q)) (hr : r ≠ "") (hq : q ≠ "*") :
    parse (format (l, p, r, q)) = .ok (l, p, r, q) := by
  cases hf : findFrom expr str.data with
  | none =>
    rw [parse_of_findFrom_none _ hf] at h
    cases h
  | some m =>
    rw [parse_of_findFrom _ _ hf] at h
    obtain ⟨suf, hmem⟩ := findFrom_mem _ _ _ hf
    obtain ⟨c0, t, pp, k3, hk, h0, ht, htall, hpp, hk3⟩ := expr_run_caps suf m hmem
    rw [hk] at h
    rcases hk3 with rfl | ⟨w3, rr, k5, rfl, hrr, hrrall, hk5⟩
    · simp [sub, List.lookup] at h
      exact absurd h.2.2.1.symm hr
    · rcases hk5 with rfl | ⟨w5, qq, rfl, hqq, hqqall⟩
      · simp [sub, List.lookup] at h
        obtain ⟨hl, hp, hr1, hq1⟩ := h
        subst hl hp hr1 hq1
        rcases hpp with ⟨hppne, hppall⟩ | hstar
        · exact parse_formatted c0 t pp rr pp h0 ht htall (Or.inl ⟨hppne, hppall⟩) hrr hrrall
            hppne hppall
        · subst hstar
          exact absurd rfl hq
      · have hq2 : String.mk qq ≠ "" := by
          intro hc
          apply hqq
          have := congrArg String.data hc
          simpa using this
        simp [sub, List.lookup, hq2] at h
        obtain ⟨hl, hp, hr1, hq1⟩ := h
        subst hl hp hr1 hq1
        exact parse_formatted c0 t pp rr qq h0 ht htall hpp hrr hrrall hqq hqqall

/-- C7 (amended), for the spec `web:*@db:22`. -/
theorem C7_parse_format_parse_witness :
    parse "web:*@db:22" = .ok ("web", "*", "db", "22") ∧
    parse (format ("web", "*", "db", "22")) = .ok ("web", "*", "db", "22") :=
  ⟨rfl, C7_parse_format_parse "web:*@db:22" "web" "*" "db" "22" rfl (by decide) (by decide)⟩

end Register

/-! ## Go maps: the other keys after a delete -/

theorem mapGet_mapDelete_ne {κ ν : Type} [DecidableEq κ] (m : List (κ × ν)) (k q : κ)
    (hq : q ≠ k) : mapGet (mapDelete m k) q = mapGet m q := by
  induction m with
  | nil => rfl
  | cons e m ih =>
    obtain ⟨k0, v⟩ := e
    by_cases hk : k0 = k
    · subst hk
      have hkq : ¬ k0 = q := fun h => hq h.symm
      simp [mapDelete, mapGet, hkq, ih]
    · by_cases hk0 : k0 = q
      · subst hk0
        simp [mapDelete, mapGet, hk]
      · simp [mapDelete, mapGet, hk, hk0, ih]

namespace Server

/-! ## The user registry: a principal without a record -/

theorem Reply_userDB (req : Request) (ok : Bool) (b : List Nat) (s : State) :
    (Reply req ok b s).userDB = s.userDB := by
  unfold Reply
  split <;> rfl

theorem Reply_calls (req : Request) (ok : Bool) (b : List Nat) (s : State) :
    (Reply req ok b s).calls = s.calls := by
  unfold Reply
  split <;> rfl

theorem goCall_userDB (cb : Option Nat) (m : Nat) (h : Host) (s : State) :
    (goCall cb m h s).userDB = s.userDB := by
  unfold goCall
  split <;> rfl

theorem lookupUser_absent (s : State) (name : String) (h : mapGet s.userDB name = none) :
    lookupUser s name = user.zero := by
  simp [lookupUser, h]

/-- The forward handler leaves the user registry as it was. -/
theorem TCPIPForwardRequest_userDB (env : Env) (req : Request) (conn : Conn) (s : State) :
    (TCPIPForwardRequest env req conn s).1.userDB = s.userDB := by
  unfold TCPIPForwardRequest
  simp only
  split
  · rfl
  · split
    · rfl
    · rename_i t1 s2 hrep
      have hs2 : s2.userDB = s.userDB := by
        split_ifs at hrep
        · split at hrep
          · cases hrep
          · simp only [Option.some.injEq, Prod.mk.injEq] at hrep
            rw [← hrep.2, Reply_userDB]
        · simp only [Option.some.injEq, Prod.mk.injEq] at hrep
          rw [← hrep.2, Reply_userDB]
      split
      · exact hs2
      · simp only [goCall_userDB]
        exact hs2

theorem forwardTerminated_userDB (conn : Conn) (ln : Listener) (h : Host) (s : State) :
    (forwardTerminated conn ln h s).1.userDB = s.userDB := by
  unfold forwardTerminated
  simp only
  exact goCall_userDB _ _ _ _

theorem TCPIPCancelRequest_userDB (env : Env) (req : Request) (s : State) :
    (TCPIPCancelRequest env req s).userDB = s.userDB := by
  unfold TCPIPCancelRequest
  simp only
  split
  · rfl
  · split
    · rfl
    · rename_i s1 hrep
      simp only
      split_ifs at hrep
      · split at hrep
        · cases hrep
        · simp only [Option.some.injEq] at hrep
          rw [← hrep, Reply_userDB]
      · simp only [Option.some.injEq] at hrep
        rw [← hrep, Reply_userDB]

/-- No operation of the server removes a record of the user registry. -/
theorem Op_apply_keeps_record (op : Op) (s : State) (name : String)
    (h : (mapGet s.userDB name).isSome = true) :
    (mapGet (op.apply s).userDB name).isSome = true := by
  cases op with
  | addUser uname m ccb dcb =>
    by_cases hn : uname = name
    · simp [Op.apply, AddUser, mapSet, mapGet, hn]
    · have hne : name ≠ uname := fun hh => hn hh.symm
      simp only [Op.apply, AddUser, mapSet, mapGet, hn, if_false]
      rw [mapGet_mapDelete_ne _ _ _ hne]
      exact h
  | forward env req conn =>
    simp only [Op.apply, TCPIPForwardRequest_userDB]
    exact h
  | terminated conn ln h0 =>
    simp only [Op.apply, forwardTerminated_userDB]
    exact h
  | cancel env req =>
    simp only [Op.apply, TCPIPCancelRequest_userDB]
    exact h

theorem run_keeps_record (ops : List Op) (s : State) (name : String)
    (h : (mapGet s.userDB name).isSome = true) :
    (mapGet (run ops s).userDB name).isSome = true := by
  induction ops generalizing s with
  | nil => exact h
  | cons op ops ih => exact ih _ (Op_apply_keeps_record op s name h)

/-- The password callback admits only a principal that has a record. -/
theorem PasswordCallback_admits_record (s : State) (name pass : String)
    (h : (PasswordCallback s name pass).isSome = true) :
    (mapGet s.userDB name).isSome = true := by
  unfold PasswordCallback at h
  split at h
  · rename_i u hu
    simp [hu]
  · simp at h

/-- For a principal without a record the forward handler starts no callback before
`sshConn.Wait()`. -/
theorem forward_absent_calls (env : Env) (req : Request) (conn : Conn) (s : State)
    (habs : mapGet s.userDB conn.User = none) :
    (TCPIPForwardRequest env req conn s).1.calls = s.calls := by
  unfold TCPIPForwardRequest
  simp only
  split
  · rfl
  · split
    · rfl
    · rename_i t1 s2 hrep
      have hs2 : s2.userDB = s.userDB ∧ s2.calls = s.calls := by
        split_ifs at hrep
        · split at hrep
          · cases hrep
          · simp only [Option.some.injEq, Prod.mk.injEq] at hrep
            rw [← hrep.2, Reply_userDB, Reply_calls]
            exact ⟨rfl, rfl⟩
        · simp only [Option.some.injEq, Prod.mk.injEq] at hrep
          rw [← hrep.2, Reply_userDB, Reply_calls]
          exact ⟨rfl, rfl⟩
      have hu : lookupUser s2 conn.User = user.zero :=
        lookupUser_absent s2 _ (by rw [hs2.1]; exact habs)
      split
      · exact hs2.2
      · simp [hu, user.zero, goCall, hs2.2]

/-- For a principal without a record the forward handler starts no callback after
`sshConn.Wait()`. -/
theorem forwardTerminated_absent_calls (conn : Conn) (ln : Listener) (h : Host) (s : State)
    (habs : mapGet s.userDB conn.User = none) :
    (forwardTerminated conn ln h s).1.calls = s.calls := by
  simp [forwardTerminated, lookupUser_absent s _ habs, user.zero, goCall]

/-- C11 (counterexample): the principal `ghost` has no record in a user registry filled by
`AddUser` for `web.8080` only. Its tcpip-forward request for 0.0.0.0:8080 opens and
registers the listener, sends the reply and reaches `sshConn.Wait()`, no callback being
invoked; but the handler has started the nil create-callback of the zero record, and
the call of that nil function brings the process down: the handler fails. The
delete-callback it starts after `sshConn.Wait()` is the nil function as well. -/
theorem C11_absent_principal_counterexample :
    AddUser "web.8080" 7 (some 1) (some 2) stateEmpty = state0 ∧
    mapGet state0.userDB connGhost.User = none ∧
    state0.fatal = false ∧
    TCPIPForwardRequest envFixed reqFixed connGhost state0
      = (stateGhostOpened, .waiting lnFixed hostFixed) ∧
    mapGet stateGhostOpened.rfwds "0.0.0.0:8080" = some lnFixed ∧
    stateGhostOpened.sent = [(true, [0, 0, 31, 144])] ∧
    stateGhostOpened.calls = [] ∧
    stateGhostOpened.fatal = true ∧
    (lookupUser stateGhostOpened connGhost.User).dcb = none ∧
    (forwardTerminated connGhost lnFixed hostFixed stateGhostOpened).1.calls = [] ∧
    (forwardTerminated connGhost lnFixed hostFixed stateGhostOpened).1.fatal = true := by
  decide

/-- C11 (amended): for every forwarding event whose requesting principal has no record in
the user registry, the forward handler invokes no create-callback and no delete-callback;
and no such event is served through `Listen`: its password callback admits only a
principal that has a record, and no operation of the server removes a record. -/
theorem C11_absent_principal_no_callback (env : Env) (req : Request) (conn : Conn)
    (s : State) (ln : Listener) (h : Host) :
    (mapGet s.userDB conn.User = none →
      (TCPIPForwardRequest env req conn s).1.calls = s.calls ∧
      (forwardTerminated conn ln h s).1.calls = s.calls) ∧
    (∀ (pass : String) (ops : List Op),
      (PasswordCallback s conn.User pass).isSome = true →
      (mapGet s.userDB conn.User).isSome = true ∧
      (mapGet (run ops s).userDB conn.User).isSome = true) := by
  constructor
  · intro habs
    exact ⟨forward_absent_calls env req conn s habs,
      forwardTerminated_absent_calls conn ln h s habs⟩
  · intro pass ops hadm
    have hrec := PasswordCallback_admits_record s conn.User pass hadm
    exact ⟨hrec, run_keeps_record ops s conn.User hrec⟩

/-- C11 (amended), for the principal `ghost`, which has no record, and for the principal
`web.8080`, admitted with the fixed password, after a forward, an overwrite of its record,
the end of the forward and a cancel. -/
theorem C11_absent_principal_no_callback_witness :
    ((TCPIPForwardRequest envFixed reqFixed connGhost state0).1.calls = state0.calls ∧
      (forwardTerminated connGhost lnFixed hostFixed state0).1.calls = state0.calls) ∧
    ((mapGet state0.userDB connWeb.User).isSome = true ∧
      (mapGet (run [Op.forward envFixed reqFixed connWeb, Op.addUser "web.8080" 9 none none,
        Op.terminated connWeb lnFixed hostFixed, Op.cancel envFixed reqFixed] state0).userDB
        connWeb.User).isSome = true) :=
  ⟨(C11_absent_principal_no_callback envFixed reqFixed connGhost state0 lnFixed hostFixed).1
      (by decide),
    (C11_absent_principal_no_callback envFixed reqFixed connWeb state0 lnFixed hostFixed).2
      "123456789" _ (by decide)⟩

end Server

namespace Register

/-! ## `Reg.Disconnect`: what it changes -/

/-- C12 (counterexample): after a failing `Connect` on port 8080 and then `Cleanup`, the
map still holds the entry of port 8080, its channel closed. `Reg.Disconnect` for 8080
panics in `close`: it does not return normally and the entry is not removed. -/
theorem C12_Disconnect_after_Cleanup_counterexample :
    mapGet worldFailedOnce.goroutines "8080" = some 0 ∧
    worldFailedOnce.closed = [] ∧
    mapGet worldCleaned.goroutines "8080" = some 0 ∧
    worldCleaned.closed = [0] ∧
    worldCleaned.panicked = false ∧
    (regWeb.Disconnect worldCleaned).panicked = true ∧
    mapGet (regWeb.Disconnect worldCleaned).goroutines "8080" = some 0 := by
  decide

/-- C12 (amended): for every port-to-task map and every local port `p`, with no retry task
registered for `p`, `Reg.Disconnect` for `p` changes nothing and returns (no channel is
closed, the map is as it was); with a task registered whose channel is still open,
exactly that channel is closed, the entry of `p` is removed and `Reg.Disconnect` returns,
while the entry of every other port and all else is unchanged. -/
theorem C12_Disconnect_frame {σ : Type} (r : Reg) (w : World σ) :
    (mapGet w.goroutines r.Lport = none → r.Disconnect w = w) ∧
    (∀ ch, mapGet w.goroutines r.Lport = some ch → ch ∉ w.closed →
      (r.Disconnect w).closed = ch :: w.closed ∧
      mapGet (r.Disconnect w).goroutines r.Lport = none ∧
      (∀ q, q ≠ r.Lport → mapGet (r.Disconnect w).goroutines q = mapGet w.goroutines q) ∧
      (r.Disconnect w).panicked = w.panicked ∧
      (r.Disconnect w).tasks = w.tasks ∧ (r.Disconnect w).nextChan = w.nextChan ∧
      (r.Disconnect w).ssh = w.ssh ∧ (r.Disconnect w).dials = w.dials) := by
  constructor
  · intro h
    simp [Reg.Disconnect, h]
  · intro ch h hopen
    have hd : r.Disconnect w =
        { w with closed := ch :: w.closed, goroutines := mapDelete w.goroutines r.Lport } := by
      simp [Reg.Disconnect, h, hopen]
    rw [hd]
    exact ⟨rfl, mapGet_mapDelete_self _ _, fun q hq => mapGet_mapDelete_ne _ _ q hq,
      rfl, rfl, rfl, rfl, rfl⟩

/-- C12 (amended), on the process that has done nothing, where port 8080 has no task, and
on the process after one failing `Connect`, where port 8080 has the task with the open
channel 0. -/
theorem C12_Disconnect_frame_witness :
    regWeb.Disconnect world0 = world0 ∧
    ((regWeb.Disconnect worldFailedOnce).closed = 0 :: worldFailedOnce.closed ∧
      mapGet (regWeb.Disconnect worldFailedOnce).goroutines regWeb.Lport = none ∧
      (∀ q, q ≠ regWeb.Lport →
        mapGet (regWeb.Disconnect worldFailedOnce).goroutines q
          = mapGet worldFailedOnce.goroutines q) ∧
      (regWeb.Disconnect worldFailedOnce).panicked = worldFailedOnce.panicked ∧
      (regWeb.Disconnect worldFailedOnce).tasks = worldFailedOnce.tasks ∧
      (regWeb.Disconnect worldFailedOnce).nextChan = worldFailedOnce.nextChan ∧
      (regWeb.Disconnect worldFailedOnce).ssh = worldFailedOnce.ssh ∧
      (regWeb.Disconnect worldFailedOnce).dials = worldFailedOnce.dials) :=
  ⟨(C12_Disconnect_frame regWeb world0).1 (by decide),
    (C12_Disconnect_frame regWeb worldFailedOnce).2 0 (by decide) (by decide)⟩

end Register
